import Mathlib

/-
  Verification development for the go-injector runtime object-graph
  container (package `injector`).  The Go source is shallowly embedded:
  registered values are pointers identified by a numeric instance id and
  a numeric concrete (pointer) type id; struct shapes, `inject` tags and
  field values are explicit inductive data; panics become `Except`
  errors; goroutine cleanup races are modelled with logical durations.
-/

namespace Injector

/- A declared Go type as seen by the resolver: either a reference
(pointer/interface) type identified by a numeric type id, or a struct
type listing its fields.  Each field carries its name, its optional
`inject` tag (`none` = no tag, `some ""` = unnamed, `some "inline"` =
inline, `some key` = named) and its declared type. -/
mutual

inductive GoType where
  | ref : Nat → GoType
  | strct : Fields → GoType

inductive Fields where
  | nil : Fields
  | cons : Field → Fields → Fields

inductive Field where
  | fld : String → Option String → GoType → Field

end

deriving instance DecidableEq for GoType, Fields, Field

/- A runtime field value: a reference field holds the id of a registered
instance (or nil), a struct field holds the values of its own fields in
declared order. -/
mutual

inductive Val where
  | ref : Option Nat → Val
  | strct : Vals → Val

inductive Vals where
  | nil : Vals
  | cons : Val → Vals → Vals

end

deriving instance DecidableEq for Val, Vals

/- Behaviour of a `Clean` hook: how many logical time units the hook
takes, and whether it returns an error. -/
structure CleanBehavior where
  duration : Nat
  err : Option String
deriving DecidableEq

/- A registered object (`injector.Object` plus the behaviour the
container observes through the `Initializer`/`Cleaner` capabilities).
`cty` is the concrete (pointer) type id used by `reflect.TypeOf`
comparisons, `sty` the pointed-to struct type inspected by `inject`,
`value` the current field values.  `initRes = none` means the object is
no `Initializer`; `some none` an `Init` returning nil; `some (some e)`
an `Init` returning error `e`.  `clean = none` means no `Cleaner`. -/
structure RegObj where
  name : String
  id : Nat
  cty : Nat
  sty : GoType
  value : Val
  initRes : Option (Option String) := none
  clean : Option CleanBehavior := none
deriving DecidableEq

/- Wiring-time panics of `inject` (owner object type, field name, and
the data each Go panic message carries). -/
inductive InjErr where
  | noCandidates : GoType → String → GoType → InjErr
  | manyCandidates : Nat → GoType → String → GoType → InjErr
  | setFailed : GoType → String → Nat → InjErr
deriving DecidableEq

/- Registration-time panics of `WithObject` / `WithNamedObject`. -/
inductive RegErr where
  | typeConflict : Nat → RegErr
  | nameConflict : String → RegErr
  | emptyName : RegErr
deriving DecidableEq

/- The zero value of a type: nil references, recursively zero structs
(`reflect.New(fld.Type())`). -/
mutual

def zeroOfTy : GoType → Val
  | .ref _ => .ref none
  | .strct fs => .strct (zeroOfFields fs)

def zeroOfFields : Fields → Vals
  | .nil => .nil
  | .cons (.fld _ _ ty) fs => .cons (zeroOfTy ty) (zeroOfFields fs)

end

def zeroOfField : Field → Val
  | .fld _ _ ty => zeroOfTy ty

/- `getCandidatesForField`: the Go switch on the tag value.  `ass c t`
models `reflect.TypeOf(value).AssignableTo(fldType)` for a registered
value of concrete type id `c` and a declared field type `t`. -/
def getCandidatesForField (objs : List RegObj) (ass : Nat → GoType → Bool)
    (fldTy : GoType) (tag : String) : List RegObj :=
  if tag = "" then
    objs.filter (fun o => (o.name == "") && ass o.cty fldTy)
  else if tag = "inline" then
    []
  else
    objs.filter (fun o => o.name == tag)

/- `inject`: walk the fields of the object in declared order.  Untagged
fields are skipped; an `inline` tag builds a fresh zero value of the
field type, recursively injects it (the fresh object becomes the owner
for its own error messages) and writes it over the field; any other tag
resolves candidates and requires exactly one, then sets the field to
that registered value (the set itself fails if the candidate is not
assignable). -/
mutual

def inject (reg : List RegObj) (ass : Nat → GoType → Bool) (owner : GoType) :
    GoType → Val → Except InjErr Val
  | .ref _, v => .ok v
  | .strct fs, .strct vs => (injectFields reg ass owner fs vs).map Val.strct
  | .strct _, .ref r => .ok (.ref r)

def injectFields (reg : List RegObj) (ass : Nat → GoType → Bool) (owner : GoType) :
    Fields → Vals → Except InjErr Vals
  | .nil, _ => .ok .nil
  | .cons f fs, .nil => do
    let v ← injectField reg ass owner f (zeroOfField f)
    let tl ← injectFields reg ass owner fs .nil
    .ok (.cons v tl)
  | .cons f fs, .cons cv vs => do
    let v ← injectField reg ass owner f cv
    let tl ← injectFields reg ass owner fs vs
    .ok (.cons v tl)

def injectField (reg : List RegObj) (ass : Nat → GoType → Bool) (owner : GoType) :
    Field → Val → Except InjErr Val
  | .fld fname tag fty, cur =>
    match tag with
    | none => .ok cur
    | some t =>
      if t = "inline" then
        inject reg ass fty fty (zeroOfTy fty)
      else
        match getCandidatesForField reg ass fty t with
        | [] => .error (.noCandidates owner fname fty)
        | [c] =>
          if ass c.cty fty then .ok (.ref (some c.id))
          else .error (.setFailed owner fname c.cty)
        | cs => .error (.manyCandidates cs.length owner fname fty)

end

/- `WithObject`: panics when an unnamed object of the same concrete type
already exists; otherwise appends the object (with empty name),
preserving call order. -/
def WithObject (objs : List RegObj) (o : RegObj) : Except RegErr (List RegObj) :=
  if objs.any (fun e => (e.name == "") && (e.cty == o.cty)) then
    .error (.typeConflict o.cty)
  else
    .ok (objs ++ [{ o with name := "" }])

/- `WithNamedObject`: panics on an empty name, or when a named object
with the same name already exists; otherwise appends. -/
def WithNamedObject (objs : List RegObj) (name : String) (o : RegObj) :
    Except RegErr (List RegObj) :=
  if name = "" then
    .error .emptyName
  else if objs.any (fun e => (e.name != "") && (e.name == name)) then
    .error (.nameConflict name)
  else
    .ok (objs ++ [{ o with name := name }])

/- The wiring loop of `InitializeGraph`: inject every registered object,
resolving candidates against the full registry; the first injection
panic aborts the pass. -/
def injectAll (objs : List RegObj) (ass : Nat → GoType → Bool) :
    Except InjErr (List RegObj) :=
  objs.mapM fun o => (inject objs ass o.sty o.sty o.value).map fun v => { o with value := v }

/- Ids of the objects that expose the `Initializer` capability, in
registration order. -/
def initIds (objs : List RegObj) : List Nat :=
  (objs.filter fun o => o.initRes.isSome).map fun o => o.id

/- The `Init` loop of `InitializeGraph`: walk the objects in
registration order, invoke `Init` on every `Initializer`; the first
error aborts immediately.  Returns the ids whose hooks were invoked and
the aborting object with its error, if any. -/
def runInits : List RegObj → List Nat × Option (Nat × String)
  | [] => ([], none)
  | o :: rest =>
    match o.initRes with
    | none => runInits rest
    | some none =>
      let r := runInits rest
      (o.id :: r.1, r.2)
    | some (some e) => ([o.id], some (o.id, e))

/- Startup panics: a wiring panic, or `Init` failing on some object
(the panic names the object and carries the underlying error). -/
inductive GraphErr where
  | inj : InjErr → GraphErr
  | initFailure : Nat → String → GraphErr
deriving DecidableEq

/- `InitializeGraph`: wire every object first, then run the `Init`
hooks; on success returns the wired objects and the invoked hook ids. -/
def InitializeGraph (objs : List RegObj) (ass : Nat → GoType → Bool) :
    Except GraphErr (List RegObj × List Nat) :=
  match injectAll objs ass with
  | .error e => .error (.inj e)
  | .ok wired =>
    match runInits wired with
    | (_, some p) => .error (.initFailure p.1 p.2)
    | (invoked, none) => .ok (wired, invoked)

/- Outcome one cleanup task reports: success, the error the `Clean`
hook returned, or the shared timer firing first. -/
inductive CleanOutcome where
  | ok : CleanOutcome
  | cleanErr : String → CleanOutcome
  | timeout : CleanOutcome
deriving DecidableEq

/- `cleanCleanable`: race the hook against `time.After(maxDuration)`.
The timer fires first exactly when the hook needs more than the budget;
otherwise the hook result (error or success) is reported. -/
def cleanCleanable (maxDuration : Nat) (b : CleanBehavior) : CleanOutcome :=
  if maxDuration < b.duration then
    .timeout
  else
    match b.err with
    | some e => .cleanErr e
    | none => .ok

/- Observable behaviour of one `Stop` call. -/
structure StopResult where
  ranCleanup : Bool
  hooksRun : List Nat
  reports : List (Nat × CleanOutcome)
  loggedAllClean : Bool
  loggedNotAllClean : Bool
  exitCode : Option Nat
  stoppedAfter : Bool
  warnedAlreadyStopped : Bool
deriving DecidableEq

/- The registered objects exposing the `Cleaner` capability, with their
hook behaviours, in registration order. -/
def cleanersOf (objs : List RegObj) : List (Nat × CleanBehavior) :=
  objs.filterMap fun o => o.clean.map fun b => (o.id, b)

/- `Stop`: when already stopped, only a diagnostic is emitted and
nothing else happens.  Otherwise the flag is set, one task per cleaner
races its hook against the shared budget (the hook itself is never
cancelled, so every launched hook still runs to completion), and after
the barrier the outcomes are aggregated.  The source logs the
all-clean line only when no task reported an error, but it falls
through and also logs the not-all-clean line unless os.Exit(0) ended
the process first. -/
def Stop (stopped : Bool) (objs : List RegObj) (maxDuration : Nat) (exit : Bool) :
    StopResult :=
  if stopped then
    { ranCleanup := false, hooksRun := [], reports := [],
      loggedAllClean := false, loggedNotAllClean := false,
      exitCode := none, stoppedAfter := stopped, warnedAlreadyStopped := true }
  else
    let cs := cleanersOf objs
    let reports := cs.map fun p => (p.1, cleanCleanable maxDuration p.2)
    let allClean := reports.all fun p => p.2 == CleanOutcome.ok
    { ranCleanup := true,
      hooksRun := cs.map fun p => p.1,
      reports := reports,
      loggedAllClean := allClean,
      loggedNotAllClean := !(allClean && exit),
      exitCode := if exit then some (if allClean then 0 else 1) else none,
      stoppedAfter := true,
      warnedAlreadyStopped := false }

/- Checks that every untagged (non-annotated) field holds the zero
value of its declared type. -/
def untaggedZero : Fields → Vals → Bool
  | .nil, _ => true
  | .cons (.fld _ none ty) fs, .cons v vs => decide (v = zeroOfTy ty) && untaggedZero fs vs
  | .cons (.fld _ (some _) _) fs, .cons _ vs => untaggedZero fs vs
  | .cons _ _, .nil => false

/- Go pointer assignability restricted to identical pointer types: a
registered value of concrete type id `c` is assignable exactly to a
field declared with the reference type of the same id. -/
def ptrAssignable : Nat → GoType → Bool := fun c t => t == GoType.ref c

/- Scenario A: unnamed `A{}` and unnamed `B{ dep *A `inject:""` }`. -/
def scenA_A : RegObj :=
  { name := "", id := 1, cty := 10, sty := .strct .nil, value := .strct .nil }

def scenA_BTy : GoType := .strct (.cons (.fld "dep" (some "") (.ref 10)) .nil)

def scenA_B : RegObj :=
  { name := "", id := 2, cty := 20, sty := scenA_BTy,
    value := .strct (.cons (.ref none) .nil) }

/- Scenario E: `Service{ inline Mid }`, `Mid{ inline Inner; L *Logger }`,
`Inner{ L *Logger }`, one registered `Logger` (pointer type id 1). -/
def scenE_InnerTy : GoType := .strct (.cons (.fld "L" (some "") (.ref 1)) .nil)

def scenE_MidTy : GoType :=
  .strct (.cons (.fld "Inner" (some "inline") scenE_InnerTy)
    (.cons (.fld "L" (some "") (.ref 1)) .nil))

def scenE_ServiceTy : GoType := .strct (.cons (.fld "Mid" (some "inline") scenE_MidTy) .nil)

def scenE_logger : RegObj :=
  { name := "", id := 100, cty := 1, sty := .strct .nil, value := .strct .nil }

def scenE_service : RegObj :=
  { name := "", id := 200, cty := 2, sty := scenE_ServiceTy,
    value := zeroOfTy scenE_ServiceTy }

/- The fully wired Service value: every reachable Logger field holds the
registered logger instance (id 100). -/
def scenE_wiredServiceVal : Val :=
  .strct (.cons (.strct (.cons (.strct (.cons (.ref (some 100)) .nil))
    (.cons (.ref (some 100)) .nil))) .nil)

/- A registered value named "x" whose concrete type would be assignable
to a `*A`-typed field (type id 10). -/
def scenN_named : RegObj :=
  { name := "x", id := 5, cty := 10, sty := .strct .nil, value := .strct .nil }

/- Cleanup scenarios: a cleaner whose hook succeeds immediately, and a
cleaner whose hook sleeps 4 time-units. -/
def scenD_fast : RegObj :=
  { name := "", id := 7, cty := 3, sty := .strct .nil, value := .strct .nil,
    clean := some ⟨0, none⟩ }

def scenD_slow : RegObj :=
  { name := "", id := 8, cty := 4, sty := .strct .nil, value := .strct .nil,
    clean := some ⟨4, none⟩ }

/- A composite type with one untagged field and one unnamed-tagged
Logger field, for the inline frame-effect claim. -/
def scenI_MixTy : GoType :=
  .strct (.cons (.fld "keep" none (.ref 5))
    (.cons (.fld "L" (some "") (.ref 1)) .nil))

/- A second unnamed value with the same concrete type as `scenA_A`. -/
def scenM_A2 : RegObj :=
  { name := "", id := 3, cty := 10, sty := .strct .nil, value := .strct .nil }

/- A second value carrying the same name as `scenN_named`. -/
def scenN_named2 : RegObj :=
  { name := "x", id := 6, cty := 11, sty := .strct .nil, value := .strct .nil }

/- Lifecycle scenario: an `Initializer` whose `Init` succeeds, an object
with no `Init` hook, an `Initializer` whose `Init` fails, and a later
`Initializer` that would succeed. -/
def scenL_ok1 : RegObj :=
  { name := "", id := 21, cty := 21, sty := .strct .nil, value := .strct .nil,
    initRes := some none }

def scenL_plain : RegObj :=
  { name := "", id := 22, cty := 22, sty := .strct .nil, value := .strct .nil }

def scenL_fail : RegObj :=
  { name := "", id := 23, cty := 23, sty := .strct .nil, value := .strct .nil,
    initRes := some (some "boom") }

def scenL_after : RegObj :=
  { name := "", id := 24, cty := 24, sty := .strct .nil, value := .strct .nil,
    initRes := some none }

end Injector

deriving instance DecidableEq for Except

namespace Injector

theorem getCandidates_unnamed (reg : List RegObj) (ass : Nat → GoType → Bool)
    (fldTy : GoType) :
    getCandidatesForField reg ass fldTy "" =
      reg.filter (fun o => (o.name == "") && ass o.cty fldTy) := by
  simp [getCandidatesForField]

theorem getCandidates_named (reg : List RegObj) (ass : Nat → GoType → Bool)
    (fldTy : GoType) (t : String) (h1 : t ≠ "") (h2 : t ≠ "inline") :
    getCandidatesForField reg ass fldTy t = reg.filter (fun o => o.name == t) := by
  simp [getCandidatesForField, h1, h2]

theorem injectField_lookup (reg : List RegObj) (ass : Nat → GoType → Bool)
    (owner fldTy : GoType) (fname : String) (cur : Val) (t : String)
    (ht : t ≠ "inline") :
    injectField reg ass owner (.fld fname (some t) fldTy) cur =
      match getCandidatesForField reg ass fldTy t with
      | [] => .error (.noCandidates owner fname fldTy)
      | [c] =>
        if ass c.cty fldTy then .ok (.ref (some c.id))
        else .error (.setFailed owner fname c.cty)
      | cs => .error (.manyCandidates cs.length owner fname fldTy) := by
  simp [injectField, ht]

theorem injectField_unique_filter (reg : List RegObj) (ass : Nat → GoType → Bool)
    (owner fldTy : GoType) (fname : String) (cur : Val) (e : RegObj)
    (h : reg.filter (fun o => (o.name == "") && ass o.cty fldTy) = [e]) :
    injectField reg ass owner (.fld fname (some "") fldTy) cur =
      .ok (.ref (some e.id)) := by
  have he : e ∈ reg.filter (fun o => (o.name == "") && ass o.cty fldTy) := by
    rw [h]; exact List.mem_singleton_self e
  have hass : ass e.cty fldTy = true := by
    have h2 := List.of_mem_filter he
    exact ((Bool.and_eq_true _ _).mp h2).2
  have hc : getCandidatesForField reg ass fldTy "" = [e] := by
    rw [getCandidates_unnamed, h]
  rw [injectField_lookup reg ass owner fldTy fname cur "" (by decide), hc]
  simp [hass]

/-- C1: for a field tagged `inject:""`, when exactly one unnamed
registered value has a concrete type assignable to the declared field
type, wiring assigns that registered instance itself (by identity) to
the field; in particular, in scenario A — register unnamed `A`, then
unnamed `B` whose field `dep` is tagged unnamed — after
`InitializeGraph` the field `B.dep` holds the registered `A`
instance (id 1). -/
theorem unnamed_field_assigns_unique_candidate :
    (∀ (reg : List RegObj) (ass : Nat → GoType → Bool) (owner fldTy : GoType)
        (fname : String) (cur : Val) (e : RegObj),
        reg.filter (fun o => (o.name == "") && ass o.cty fldTy) = [e] →
        injectField reg ass owner (.fld fname (some "") fldTy) cur =
          .ok (.ref (some e.id)))
    ∧ WithObject [] scenA_A = .ok [scenA_A]
    ∧ WithObject [scenA_A] scenA_B = .ok [scenA_A, scenA_B]
    ∧ InitializeGraph [scenA_A, scenA_B] ptrAssignable =
        .ok ([scenA_A,
          { scenA_B with value := .strct (.cons (.ref (some 1)) .nil) }], []) := by
  exact ⟨injectField_unique_filter, by decide, by decide, by decide⟩

theorem unnamed_field_assigns_unique_candidate_witness :
    injectField [scenA_A] ptrAssignable scenA_BTy
        (.fld "dep" (some "") (.ref 10)) (.ref none) = .ok (.ref (some 1)) :=
  unnamed_field_assigns_unique_candidate.1 [scenA_A] ptrAssignable scenA_BTy
    (.ref 10) "dep" (.ref none) scenA_A (by decide)

/-- C2: for a field tagged `inject:""`, zero assignable unnamed
candidates fail with the missing-dependency panic naming the owning
object, the field and the required type; two or more candidates fail
with the ambiguity panic naming the candidate count and the type; and
exactly one candidate succeeds, assigning that instance. -/
theorem unnamed_field_error_policy :
    (∀ (reg : List RegObj) (ass : Nat → GoType → Bool) (owner fldTy : GoType)
        (fname : String) (cur : Val),
        getCandidatesForField reg ass fldTy "" = [] →
        injectField reg ass owner (.fld fname (some "") fldTy) cur =
          .error (.noCandidates owner fname fldTy))
    ∧ (∀ (reg : List RegObj) (ass : Nat → GoType → Bool) (owner fldTy : GoType)
        (fname : String) (cur : Val) (c1 c2 : RegObj) (cs : List RegObj),
        getCandidatesForField reg ass fldTy "" = c1 :: c2 :: cs →
        injectField reg ass owner (.fld fname (some "") fldTy) cur =
          .error (.manyCandidates (c1 :: c2 :: cs).length owner fname fldTy))
    ∧ (∀ (reg : List RegObj) (ass : Nat → GoType → Bool) (owner fldTy : GoType)
        (fname : String) (cur : Val) (e : RegObj),
        getCandidatesForField reg ass fldTy "" = [e] →
        injectField reg ass owner (.fld fname (some "") fldTy) cur =
          .ok (.ref (some e.id))) := by
  refine ⟨?_, ?_, ?_⟩
  · intro reg ass owner fldTy fname cur h
    rw [injectField_lookup reg ass owner fldTy fname cur "" (by decide), h]
  · intro reg ass owner fldTy fname cur c1 c2 cs h
    rw [injectField_lookup reg ass owner fldTy fname cur "" (by decide), h]
  · intro reg ass owner fldTy fname cur e h
    exact injectField_unique_filter reg ass owner fldTy fname cur e
      (by rw [← getCandidates_unnamed reg ass fldTy]; exact h)

theorem unnamed_field_error_policy_witness :
    injectField [] ptrAssignable scenA_BTy
        (.fld "dep" (some "") (.ref 10)) (.ref none) =
      .error (.noCandidates scenA_BTy "dep" (.ref 10))
    ∧ injectField [scenA_A, scenM_A2] ptrAssignable scenA_BTy
        (.fld "dep" (some "") (.ref 10)) (.ref none) =
      .error (.manyCandidates 2 scenA_BTy "dep" (.ref 10))
    ∧ injectField [scenA_A] ptrAssignable scenA_BTy
        (.fld "dep" (some "") (.ref 10)) (.ref none) = .ok (.ref (some 1)) := by
  refine ⟨?_, ?_, ?_⟩
  · exact unnamed_field_error_policy.1 [] ptrAssignable scenA_BTy (.ref 10)
      "dep" (.ref none) (by decide)
  · exact unnamed_field_error_policy.2.1 [scenA_A, scenM_A2] ptrAssignable
      scenA_BTy (.ref 10) "dep" (.ref none) scenA_A scenM_A2 [] (by decide)
  · exact unnamed_field_error_policy.2.2 [scenA_A] ptrAssignable scenA_BTy
      (.ref 10) "dep" (.ref none) scenA_A (by decide)

/-- C3: registration fails with a registration-conflict panic exactly
when a second unnamed value repeats the concrete type of an existing
unnamed value, when a named value repeats the name of an existing named
value (regardless of type), or when a named value has an empty name;
otherwise the entry is appended, preserving call order. -/
theorem registration_conflict_policy :
    (∀ (objs : List RegObj) (o : RegObj),
        (∃ e ∈ objs, e.name = "" ∧ e.cty = o.cty) →
        WithObject objs o = .error (.typeConflict o.cty))
    ∧ (∀ (objs : List RegObj) (o : RegObj),
        (¬ ∃ e ∈ objs, e.name = "" ∧ e.cty = o.cty) →
        WithObject objs o = .ok (objs ++ [{ o with name := "" }]))
    ∧ (∀ (objs : List RegObj) (o : RegObj),
        WithNamedObject objs "" o = .error .emptyName)
    ∧ (∀ (objs : List RegObj) (nm : String) (o : RegObj), nm ≠ "" →
        (∃ e ∈ objs, e.name ≠ "" ∧ e.name = nm) →
        WithNamedObject objs nm o = .error (.nameConflict nm))
    ∧ (∀ (objs : List RegObj) (nm : String) (o : RegObj), nm ≠ "" →
        (¬ ∃ e ∈ objs, e.name ≠ "" ∧ e.name = nm) →
        WithNamedObject objs nm o = .ok (objs ++ [{ o with name := nm }])) := by
  refine ⟨?_, ?_, ?_, ?_, ?_⟩
  · intro objs o h
    have hb : objs.any (fun e => (e.name == "") && (e.cty == o.cty)) = true := by
      simp only [List.any_eq_true, Bool.and_eq_true, beq_iff_eq]
      exact h
    simp [WithObject, hb]
  · intro objs o h
    have hb : objs.any (fun e => (e.name == "") && (e.cty == o.cty)) = false := by
      simp only [Bool.eq_false_iff, ne_eq, List.any_eq_true, Bool.and_eq_true,
        beq_iff_eq]
      exact h
    simp [WithObject, hb]
  · intro objs o
    simp [WithNamedObject]
  · intro objs nm o hnm h
    have hb : objs.any (fun e => (e.name != "") && (e.name == nm)) = true := by
      simp only [List.any_eq_true, Bool.and_eq_true, bne_iff_ne, beq_iff_eq, ne_eq]
      exact h
    simp [WithNamedObject, hnm, hb]
  · intro objs nm o hnm h
    have hb : objs.any (fun e => (e.name != "") && (e.name == nm)) = false := by
      simp only [Bool.eq_false_iff, ne_eq, List.any_eq_true, Bool.and_eq_true,
        bne_iff_ne, beq_iff_eq]
      exact h
    simp [WithNamedObject, hnm, hb]

theorem registration_conflict_policy_witness :
    WithObject [scenA_A] scenM_A2 = .error (.typeConflict 10)
    ∧ WithObject [scenA_A] scenA_B = .ok [scenA_A, scenA_B]
    ∧ WithNamedObject [] "" scenA_A = .error .emptyName
    ∧ WithNamedObject [scenN_named] "x" scenA_B = .error (.nameConflict "x")
    ∧ WithNamedObject [scenN_named] "y" scenA_A =
        .ok [scenN_named, { scenA_A with name := "y" }] := by
  refine ⟨?_, ?_, ?_, ?_, ?_⟩
  · exact registration_conflict_policy.1 [scenA_A] scenM_A2 (by decide)
  · exact registration_conflict_policy.2.1 [scenA_A] scenA_B (by decide)
  · exact registration_conflict_policy.2.2.1 [] scenA_A
  · exact registration_conflict_policy.2.2.2.1 [scenN_named] "x" scenA_B
      (by decide) (by decide)
  · exact registration_conflict_policy.2.2.2.2 [scenN_named] "y" scenA_A
      (by decide) (by decide)

/-- C4 counterexample: the claim says the unknown-name failure further
explains that only the named scope was searched; in the source the
panic for a named miss is the very same no-candidates error (owning
object, field name, field type) as a miss of the whole unnamed pool —
here a registry holding a type-compatible value named "x" fails for the
tag "y" with an error byte-for-byte equal to the error of an unnamed
lookup against an empty registry, so no scope explanation exists. -/
theorem named_miss_error_lacks_scope_explanation :
    injectField [scenN_named] ptrAssignable (.ref 99)
        (.fld "dep" (some "y") (.ref 10)) (.ref none) =
      .error (.noCandidates (.ref 99) "dep" (.ref 10))
    ∧ injectField [] ptrAssignable (.ref 99)
        (.fld "dep" (some "") (.ref 10)) (.ref none) =
      .error (.noCandidates (.ref 99) "dep" (.ref 10)) := by
  exact ⟨by decide, by decide⟩

/-- C4 (amended): for a field tagged with a name `t` (neither empty nor
`inline`), the candidate set is exactly the registered values whose
name equals `t`, with no filtering by type — a type-compatible value
under a different name, or unnamed, is never a candidate — and the
zero/one/many policy applies with the same error shapes as the unnamed
kind (no additional scope explanation in the failure). -/
theorem named_field_resolution :
    (∀ (reg : List RegObj) (ass : Nat → GoType → Bool) (fldTy : GoType)
        (t : String) (o : RegObj), t ≠ "" → t ≠ "inline" →
        (o ∈ getCandidatesForField reg ass fldTy t ↔ o ∈ reg ∧ o.name = t))
    ∧ (∀ (reg : List RegObj) (ass : Nat → GoType → Bool) (owner fldTy : GoType)
        (fname : String) (cur : Val) (t : String), t ≠ "" → t ≠ "inline" →
        reg.filter (fun o => o.name == t) = [] →
        injectField reg ass owner (.fld fname (some t) fldTy) cur =
          .error (.noCandidates owner fname fldTy))
    ∧ (∀ (reg : List RegObj) (ass : Nat → GoType → Bool) (owner fldTy : GoType)
        (fname : String) (cur : Val) (t : String) (c1 c2 : RegObj)
        (cs : List RegObj), t ≠ "" → t ≠ "inline" →
        reg.filter (fun o => o.name == t) = c1 :: c2 :: cs →
        injectField reg ass owner (.fld fname (some t) fldTy) cur =
          .error (.manyCandidates (c1 :: c2 :: cs).length owner fname fldTy))
    ∧ (∀ (reg : List RegObj) (ass : Nat → GoType → Bool) (owner fldTy : GoType)
        (fname : String) (cur : Val) (t : String) (c : RegObj),
        t ≠ "" → t ≠ "inline" →
        reg.filter (fun o => o.name == t) = [c] → ass c.cty fldTy = true →
        injectField reg ass owner (.fld fname (some t) fldTy) cur =
          .ok (.ref (some c.id))) := by
  refine ⟨?_, ?_, ?_, ?_⟩
  · intro reg ass fldTy t o h1 h2
    rw [getCandidates_named reg ass fldTy t h1 h2]
    simp [List.mem_filter]
  · intro reg ass owner fldTy fname cur t h1 h2 h
    rw [injectField_lookup reg ass owner fldTy fname cur t h2,
      getCandidates_named reg ass fldTy t h1 h2, h]
  · intro reg ass owner fldTy fname cur t c1 c2 cs h1 h2 h
    rw [injectField_lookup reg ass owner fldTy fname cur t h2,
      getCandidates_named reg ass fldTy t h1 h2, h]
  · intro reg ass owner fldTy fname cur t c h1 h2 h hass
    rw [injectField_lookup reg ass owner fldTy fname cur t h2,
      getCandidates_named reg ass fldTy t h1 h2, h]
    simp [hass]

theorem named_field_resolution_witness :
    scenN_named ∈ getCandidatesForField [scenA_A, scenN_named] ptrAssignable
        (.ref 10) "x"
    ∧ injectField [scenA_A, scenN_named] ptrAssignable (.ref 99)
        (.fld "dep" (some "y") (.ref 10)) (.ref none) =
      .error (.noCandidates (.ref 99) "dep" (.ref 10))
    ∧ injectField [scenN_named, scenN_named2] ptrAssignable (.ref 99)
        (.fld "dep" (some "x") (.ref 10)) (.ref none) =
      .error (.manyCandidates 2 (.ref 99) "dep" (.ref 10))
    ∧ injectField [scenA_A, scenN_named] ptrAssignable (.ref 99)
        (.fld "dep" (some "x") (.ref 10)) (.ref none) =
      .ok (.ref (some 5)) := by
  refine ⟨?_, ?_, ?_, ?_⟩
  · exact (named_field_resolution.1 [scenA_A, scenN_named] ptrAssignable
      (.ref 10) "x" scenN_named (by decide) (by decide)).mpr (by decide)
  · exact named_field_resolution.2.1 [scenA_A, scenN_named] ptrAssignable
      (.ref 99) (.ref 10) "dep" (.ref none) "y" (by decide) (by decide) (by decide)
  · exact named_field_resolution.2.2.1 [scenN_named, scenN_named2] ptrAssignable
      (.ref 99) (.ref 10) "dep" (.ref none) "x" scenN_named scenN_named2 []
      (by decide) (by decide) (by decide)
  · exact named_field_resolution.2.2.2 [scenA_A, scenN_named] ptrAssignable
      (.ref 99) (.ref 10) "dep" (.ref none) "x" scenN_named
      (by decide) (by decide) (by decide) (by decide)

/-- C5: inline composition shares by identity — in scenario E
(`Service{ inline Mid }`, `Mid{ inline Inner; L *Logger }`,
`Inner{ L *Logger }`, one registered Logger), after registering the
composite and the logger and running `InitializeGraph`, every reachable
Logger-typed field at every nesting level holds a reference to the one
registered Logger instance (id 100), never a duplicate. -/
theorem inline_composition_shares_identity :
    WithObject [] scenE_service = .ok [scenE_service]
    ∧ WithObject [scenE_service] scenE_logger = .ok [scenE_service, scenE_logger]
    ∧ InitializeGraph [scenE_service, scenE_logger] ptrAssignable =
        .ok ([{ scenE_service with value := scenE_wiredServiceVal },
          scenE_logger], [])
    ∧ scenE_wiredServiceVal =
        .strct (.cons (.strct
          (.cons (.strct (.cons (.ref (some scenE_logger.id)) .nil))
            (.cons (.ref (some scenE_logger.id)) .nil))) .nil) := by
  exact ⟨by decide, by decide, by decide, rfl⟩

theorem runInits_append (xs rest : List RegObj)
    (h : ∀ x ∈ xs, x.initRes = none ∨ x.initRes = some none) :
    runInits (xs ++ rest) = (initIds xs ++ (runInits rest).1, (runInits rest).2) := by
  induction xs with
  | nil => simp [initIds, runInits]
  | cons x xs ih =>
    have hxs : ∀ a ∈ xs, a.initRes = none ∨ a.initRes = some none :=
      fun a ha => h a (List.mem_cons_of_mem _ ha)
    rcases h x (List.mem_cons_self x xs) with hres | hres <;>
      simp [runInits, hres, initIds, ih hxs, List.filter_cons]

/-- C6: `InitializeGraph` wires every registered object before running
any `Init` hook — a wiring failure aborts before the init phase, and on
wiring success the init outcome is a function of the fully wired
objects; the `Init` hooks of initializers run in registration order and
the first failing hook aborts the whole startup with a panic naming the
object and carrying the underlying error, with no later hook invoked. -/
theorem lifecycle_order_and_abort :
    (∀ (objs : List RegObj) (ass : Nat → GoType → Bool) (e : InjErr),
        injectAll objs ass = .error e →
        InitializeGraph objs ass = .error (.inj e))
    ∧ (∀ (objs : List RegObj) (ass : Nat → GoType → Bool) (wired : List RegObj),
        injectAll objs ass = .ok wired →
        InitializeGraph objs ass =
          match runInits wired with
          | (_, some p) => .error (.initFailure p.1 p.2)
          | (invoked, none) => .ok (wired, invoked))
    ∧ (∀ (xs ys : List RegObj) (o : RegObj) (e : String),
        (∀ x ∈ xs, x.initRes = none ∨ x.initRes = some none) →
        o.initRes = some (some e) →
        runInits (xs ++ o :: ys) = (initIds xs ++ [o.id], some (o.id, e)))
    ∧ (∀ (objs : List RegObj),
        (∀ x ∈ objs, x.initRes = none ∨ x.initRes = some none) →
        runInits objs = (initIds objs, none)) := by
  refine ⟨?_, ?_, ?_, ?_⟩
  · intro objs ass e h
    unfold InitializeGraph
    rw [h]
  · intro objs ass wired h
    unfold InitializeGraph
    rw [h]
  · intro xs ys o e hxs ho
    rw [runInits_append xs (o :: ys) hxs]
    simp [runInits, ho]
  · intro objs h
    have h2 := runInits_append objs [] h
    simpa [runInits] using h2

theorem lifecycle_order_and_abort_witness :
    InitializeGraph [scenA_B] ptrAssignable =
        .error (.inj (.noCandidates scenA_BTy "dep" (.ref 10)))
    ∧ runInits [scenL_ok1, scenL_plain, scenL_fail, scenL_after] =
        ([21, 23], some (23, "boom"))
    ∧ runInits [scenL_ok1, scenL_plain] = ([21], none) := by
  refine ⟨?_, ?_, ?_⟩
  · exact lifecycle_order_and_abort.1 [scenA_B] ptrAssignable
      (.noCandidates scenA_BTy "dep" (.ref 10)) (by decide)
  · exact lifecycle_order_and_abort.2.2.1 [scenL_ok1, scenL_plain] [scenL_after]
      scenL_fail "boom" (by decide) (by decide)
  · exact lifecycle_order_and_abort.2.2.2 [scenL_ok1, scenL_plain] (by decide)

/-- C7: `Stop` is idempotent and the stopped flag transitions false to
true exactly once — a call finding the flag already set only emits the
already-stopped diagnostic and returns with no cleanup phase, no hook
invocation, no log, no exit and the flag still true; a call finding the
flag unset sets it and runs the cleanup phase. -/
theorem stop_idempotent :
    (∀ (objs : List RegObj) (d : Nat) (ex : Bool),
        Stop true objs d ex =
          { ranCleanup := false, hooksRun := [], reports := [],
            loggedAllClean := false, loggedNotAllClean := false,
            exitCode := none, stoppedAfter := true,
            warnedAlreadyStopped := true })
    ∧ (∀ (objs : List RegObj) (d : Nat) (ex : Bool),
        (Stop false objs d ex).stoppedAfter = true
        ∧ (Stop false objs d ex).ranCleanup = true
        ∧ (Stop false objs d ex).warnedAlreadyStopped = false) := by
  exact ⟨fun objs d ex => rfl, fun objs d ex => ⟨rfl, rfl, rfl⟩⟩

/-- C8 at the failing input: one registered cleaner whose hook succeeds
immediately, budget 1, termination not requested — every task reports
success and the all-clean outcome is logged, yet the source falls
through its `if len(errorsChan) == 0` block (which only returns via
os.Exit when exit is requested) and also logs the not-all-clean
outcome, contradicting the claim that the not-all-clean outcome is
logged only when some task failed. -/
theorem stop_allclean_fallthrough_logs_both :
    (Stop false [scenD_fast] 1 false).reports = [(7, CleanOutcome.ok)]
    ∧ (Stop false [scenD_fast] 1 false).loggedAllClean = true
    ∧ (Stop false [scenD_fast] 1 false).loggedNotAllClean = true
    ∧ (Stop false [scenD_fast] 1 false).exitCode = none := by
  decide

theorem cleanersOf_append (xs ys : List RegObj) :
    cleanersOf (xs ++ ys) = cleanersOf xs ++ cleanersOf ys := by
  simp [cleanersOf]

/-- C9: a cleanup hook needing more than the `maxDuration` budget makes
its task report a timeout, which flips the aggregate outcome to failure
(and the exit status to 1 when termination is requested), while every
sibling cleaner's task is still reported exactly as its own behaviour
dictates, independent of the slow one; and the overrunning hook itself
is not cancelled — it is still among the launched hooks that run to
completion. -/
theorem cleanup_timeout_independent :
    ∀ (xs ys : List RegObj) (o : RegObj) (b : CleanBehavior) (d : Nat) (ex : Bool),
      o.clean = some b → d < b.duration →
      (Stop false (xs ++ o :: ys) d ex).reports =
          (cleanersOf xs).map (fun p => (p.1, cleanCleanable d p.2))
            ++ (o.id, CleanOutcome.timeout)
            :: (cleanersOf ys).map (fun p => (p.1, cleanCleanable d p.2))
      ∧ (Stop false (xs ++ o :: ys) d ex).loggedAllClean = false
      ∧ (Stop false (xs ++ o :: ys) d ex).exitCode = (if ex then some 1 else none)
      ∧ o.id ∈ (Stop false (xs ++ o :: ys) d ex).hooksRun := by
  intro xs ys o b d ex hc hd
  have hco : cleanersOf (xs ++ o :: ys) =
      cleanersOf xs ++ (o.id, b) :: cleanersOf ys := by
    rw [cleanersOf_append]
    simp [cleanersOf, hc]
  have ht : cleanCleanable d b = .timeout := by
    simp [cleanCleanable, hd]
  have hne : (CleanOutcome.timeout == CleanOutcome.ok) = false := by decide
  refine ⟨?_, ?_, ?_, ?_⟩
  · simp [Stop, hco, ht]
  · simp [Stop, hco, ht, hne, List.all_append]
  · simp [Stop, hco, ht, hne, List.all_append]
  · simp [Stop, hco]

theorem cleanup_timeout_independent_witness :
    (Stop false [scenD_fast, scenD_slow] 1 true).reports =
        [(7, CleanOutcome.ok), (8, CleanOutcome.timeout)]
    ∧ (Stop false [scenD_fast, scenD_slow] 1 true).loggedAllClean = false
    ∧ (Stop false [scenD_fast, scenD_slow] 1 true).exitCode = some 1
    ∧ 8 ∈ (Stop false [scenD_fast, scenD_slow] 1 true).hooksRun := by
  have h := cleanup_timeout_independent [scenD_fast] [] scenD_slow
    ⟨4, none⟩ 1 true rfl (by decide)
  exact ⟨h.1, h.2.1, h.2.2.1, h.2.2.2⟩

theorem injectFields_zero_untagged (reg : List RegObj)
    (ass : Nat → GoType → Bool) (owner : GoType) :
    ∀ (fs : Fields) (vs : Vals),
      injectFields reg ass owner fs (zeroOfFields fs) = .ok vs →
      untaggedZero fs vs = true
  | .nil, vs, h => by
    have h2 : Vals.nil = vs := by
      have hdef : injectFields reg ass owner .nil (zeroOfFields .nil) =
          .ok .nil := rfl
      rw [hdef] at h
      exact Except.ok.inj h
    subst h2
    rfl
  | .cons (.fld n none ty) fs, vs, h => by
    have hdef : injectFields reg ass owner (.cons (.fld n none ty) fs)
        (zeroOfFields (.cons (.fld n none ty) fs)) =
        Bind.bind (injectFields reg ass owner fs (zeroOfFields fs))
          (fun tl => Except.ok (.cons (zeroOfTy ty) tl)) := rfl
    rw [hdef] at h
    cases htl : injectFields reg ass owner fs (zeroOfFields fs) with
    | error e =>
      rw [htl] at h
      simp [Bind.bind, Except.bind] at h
    | ok tl =>
      rw [htl] at h
      have h2 : Vals.cons (zeroOfTy ty) tl = vs := by
        simpa [Bind.bind, Except.bind] using h
      subst h2
      simp [untaggedZero, injectFields_zero_untagged reg ass owner fs tl htl]
  | .cons (.fld n (some t) ty) fs, vs, h => by
    have hdef : injectFields reg ass owner (.cons (.fld n (some t) ty) fs)
        (zeroOfFields (.cons (.fld n (some t) ty) fs)) =
        Bind.bind (injectField reg ass owner (.fld n (some t) ty) (zeroOfTy ty))
          (fun v => Bind.bind (injectFields reg ass owner fs (zeroOfFields fs))
            (fun tl => Except.ok (.cons v tl))) := rfl
    rw [hdef] at h
    cases hv : injectField reg ass owner (.fld n (some t) ty) (zeroOfTy ty) with
    | error e =>
      rw [hv] at h
      simp [Bind.bind, Except.bind] at h
    | ok v =>
      rw [hv] at h
      cases htl : injectFields reg ass owner fs (zeroOfFields fs) with
      | error e =>
        rw [htl] at h
        simp [Bind.bind, Except.bind] at h
      | ok tl =>
        rw [htl] at h
        have h2 : Vals.cons v tl = vs := by
          simpa [Bind.bind, Except.bind] using h
        subst h2
        simp [untaggedZero, injectFields_zero_untagged reg ass owner fs tl htl]

/-- C10: for a field tagged `inject:"inline"`, wiring never reuses the
field's pre-wiring value — any two starting values give the same
result, namely the recursively wired fresh zero value of the field's
declared composite type written over the field — and every
non-annotated field of the resulting inline composite still holds the
zero value of its type. -/
theorem inline_field_fresh_zero :
    (∀ (reg : List RegObj) (ass : Nat → GoType → Bool) (owner : GoType)
        (fname : String) (ty : GoType) (cur cur' : Val),
        injectField reg ass owner (.fld fname (some "inline") ty) cur =
          injectField reg ass owner (.fld fname (some "inline") ty) cur')
    ∧ (∀ (reg : List RegObj) (ass : Nat → GoType → Bool) (owner : GoType)
        (fname : String) (ty : GoType) (cur : Val),
        injectField reg ass owner (.fld fname (some "inline") ty) cur =
          inject reg ass ty ty (zeroOfTy ty))
    ∧ (∀ (reg : List RegObj) (ass : Nat → GoType → Bool) (owner : GoType)
        (fname : String) (fs : Fields) (cur : Val) (vs : Vals),
        injectField reg ass owner (.fld fname (some "inline") (.strct fs)) cur =
          .ok (.strct vs) →
        untaggedZero fs vs = true) := by
  refine ⟨fun reg ass owner fname ty cur cur' => rfl,
    fun reg ass owner fname ty cur => rfl, ?_⟩
  intro reg ass owner fname fs cur vs h
  have hdef : injectField reg ass owner (.fld fname (some "inline") (.strct fs)) cur =
      (injectFields reg ass (.strct fs) fs (zeroOfFields fs)).map Val.strct := rfl
  rw [hdef] at h
  have h2 : injectFields reg ass (.strct fs) fs (zeroOfFields fs) = .ok vs := by
    cases hx : injectFields reg ass (.strct fs) fs (zeroOfFields fs) with
    | error e =>
      rw [hx] at h
      simp [Except.map] at h
    | ok tl =>
      rw [hx] at h
      simp only [Except.map, Except.ok.injEq, Val.strct.injEq] at h
      rw [h]
  exact injectFields_zero_untagged reg ass (.strct fs) fs vs h2

theorem inline_field_fresh_zero_witness :
    injectField [scenE_logger] ptrAssignable (.ref 99)
        (.fld "mix" (some "inline") scenI_MixTy) (.ref (some 77)) =
      injectField [scenE_logger] ptrAssignable (.ref 99)
        (.fld "mix" (some "inline") scenI_MixTy) (.strct .nil)
    ∧ untaggedZero
        (.cons (.fld "keep" none (.ref 5))
          (.cons (.fld "L" (some "") (.ref 1)) .nil))
        (.cons (.ref none) (.cons (.ref (some 100)) .nil)) = true := by
  constructor
  · exact inline_field_fresh_zero.1 [scenE_logger] ptrAssignable (.ref 99)
      "mix" scenI_MixTy (.ref (some 77)) (.strct .nil)
  · exact inline_field_fresh_zero.2.2 [scenE_logger] ptrAssignable (.ref 99)
      "mix" (.cons (.fld "keep" none (.ref 5))
        (.cons (.fld "L" (some "") (.ref 1)) .nil))
      (.ref (some 77)) (.cons (.ref none) (.cons (.ref (some 100)) .nil))
      (by decide)

end Injector
